import Mathlib

/-!
Verification of the data-plotter extraction pipeline
(`parse/rust-data-parser/src/main.rs`, with the prototype variant in
`src/main.rs`).

The pipeline is embedded shallowly:

* A filesystem path is a `String`; the traversal (`WalkDir`) is modelled by
  the list of entry paths it yields, in traversal order.  An entry whose
  path is not valid UTF-8 (so that Rust's `Path::to_str` returns `None`)
  is modelled as `none`.
* `Path` operations (`parent`, `file_name`) are modelled on `/`-separated
  relative path strings.
* A decoded CBOR document (`serde_cbor::Value`) is the inductive `Value`,
  with map entries as association lists (a `BTreeMap` has unique keys, so
  lookup by key equality coincides with association-list lookup).
* Rust panics (`Option::unwrap` on `None`, failed `parse::<i32>().unwrap()`)
  are modelled by the `Outcome.panicked` constructor; `Result` errors
  propagated by `?` are `Outcome.error`.
* `f64` values are never computed with, only moved from the decoded
  document to the output, so the float leaf type is a type parameter `F`;
  the `f64` `Display` rendering is likewise an abstract formatter
  `F → String`.
-/

namespace DataPlotter

/-- `isPre pat l` : does `pat` occur as a prefix of `l`?
Models Rust's `str::starts_with` on the underlying characters. -/
def isPre : List Char → List Char → Bool
  | [], _ => true
  | _ :: _, [] => false
  | p :: ps, c :: cs => p == c && isPre ps cs

/-- Split a character list at every occurrence of the separator `c`.
Models Rust's `str::split` with a single-character pattern: the result is
always non-empty, and splitting the empty string yields `[[]]`. -/
def splitChar (c : Char) : List Char → List (List Char)
  | [] => [[]]
  | x :: xs =>
    match splitChar c xs with
    | [] => [[]]
    | seg :: rest => if x == c then [] :: seg :: rest else (x :: seg) :: rest

/-- The characters preceding the first occurrence of `pat` (the whole list
when `pat` never occurs).  Models `str::split(pat).next().unwrap()`, which
never panics because `split` always yields at least one item. -/
def beforeSub (pat : List Char) : List Char → List Char
  | [] => []
  | c :: cs => if isPre pat (c :: cs) then [] else c :: beforeSub pat cs

/-- The final path segment of a path string: models
`path.to_str().unwrap().split("/").last().unwrap()` (main.rs line 17).
`split` always yields at least one item, so the inner `unwrap` cannot fail
once `to_str` has succeeded. -/
def lastSeg (s : String) : String :=
  String.mk ((splitChar '/' s.toList).getLastD [])

/-- Classification of a traversed entry as a measurement-file candidate:
its final path segment starts with the literal `"measurement"`
(main.rs line 17). -/
def isCand (s : String) : Bool :=
  isPre "measurement".toList (lastSeg s).toList

/-- Models `path.parent().unwrap().file_name().unwrap().to_str().unwrap()`
(main.rs line 19) on a `/`-separated relative path: the next-to-last path
segment.  `none` models a panic: the path has no parent (`""`, `"/"`), or
the parent has no file name (single-segment path, or a parent segment that
is empty).  `to_str` on a segment of a valid UTF-8 path always succeeds. -/
def parentFileName? (s : String) : Option String :=
  match ((splitChar '/' s.toList).dropLast).getLast? with
  | some seg => if seg.isEmpty then none else some (String.mk seg)
  | none => none

/-- The portion of a directory name preceding the first occurrence of the
substring `"th"`: models `dir_name.split("th").next().unwrap()`
(main.rs line 21). -/
def beforeTh (s : String) : String :=
  String.mk (beforeSub ['t', 'h'] s.toList)

/-- Numeric value of an ASCII digit. -/
def digit? (c : Char) : Option Nat :=
  if '0' ≤ c && c ≤ '9' then some (c.toNat - '0'.toNat) else none

/-- Decimal value of a non-empty, all-digit character list. -/
def digitsVal : List Char → Option Nat
  | [] => none
  | [c] => digit? c
  | c :: cs => (digit? c).bind fun d => (digitsVal cs).map fun v => d * 10 ^ cs.length + v

/-- Models Rust's `str::parse::<i32>()`: an optional single sign followed by
one or more ASCII digits, rejecting values outside the `i32` range. -/
def parseI32 (s : String) : Option Int :=
  match s.toList with
  | '+' :: rest => (digitsVal rest).bind fun n =>
      if n ≤ 2 ^ 31 - 1 then some (n : Int) else none
  | '-' :: rest => (digitsVal rest).bind fun n =>
      if n ≤ 2 ^ 31 then some (-(n : Int)) else none
  | l => (digitsVal l).bind fun n =>
      if n ≤ 2 ^ 31 - 1 then some (n : Int) else none

/-- The index the locator derives for a candidate path: parse the portion of
the parent directory's name preceding the first `"th"` as an `i32`
(main.rs lines 19–21).  `none` models a panic in either step. -/
def indexOfCand? (s : String) : Option Int :=
  (parentFileName? s).bind fun d => parseI32 (beforeTh d)

/-- The locator loop of `decode_cbor` (main.rs lines 11–25): walk the
entries in traversal order, keep `(index, path)` for every candidate.
`none` models a panic: an entry whose path is not UTF-8 (`to_str().unwrap()`),
a candidate without a parent file name, or an unparseable index. -/
def locate : List (Option String) → Option (List (Int × String))
  | [] => some []
  | none :: _ => none
  | some p :: rest =>
    if isCand p then
      match indexOfCand? p with
      | none => none
      | some n => (locate rest).map fun l => (n, p) :: l
    else locate rest

/-- `number_path.sort_by_key(|&(num, _)| num)` (main.rs line 26): key on the
index.  `Vec::sort_by_key` is a stable ascending sort, as is
`List.insertionSort` with this relation. -/
def keyLE (a b : Int × String) : Prop := a.1 ≤ b.1

instance : DecidableRel keyLE := fun a b => inferInstanceAs (Decidable (a.1 ≤ b.1))

instance : IsTotal (Int × String) keyLE := ⟨fun a b => Int.le_total a.1 b.1⟩

instance : IsTrans (Int × String) keyLE := ⟨fun _ _ _ => Int.le_trans⟩

/-- The stable ascending sort of the located `(index, path)` pairs
(main.rs line 26). -/
def sortPairs (l : List (Int × String)) : List (Int × String) :=
  List.insertionSort keyLE l

/-- Shallow embedding of `serde_cbor::Value`: maps are association lists
(unique keys, as in the `BTreeMap` they model); the float leaf type is the
parameter `F`. -/
inductive Value (F : Type) where
  | map : List (Value F × Value F) → Value F
  | text : String → Value F
  | float : F → Value F
  | integer : Int → Value F
  | other : Value F

/-- Does the key `k` equal `Value::Text(s)`? -/
def isTextKey {F : Type} (k : Value F) (s : String) : Bool :=
  match k with
  | .text t => t == s
  | _ => false

/-- `map.get(&Value::Text(s))` on the association-list model of a
`BTreeMap<Value, Value>`. -/
def mapGet {F : Type} : List (Value F × Value F) → String → Option (Value F)
  | [], _ => none
  | (k, v) :: rest, s => if isTextKey k s then some v else mapGet rest s

/-- The nested-map navigation of `decode_cbor` (main.rs lines 38–46):
top-level map → `"estimates"` map → `"median"` map → `"point_estimate"`
float leaf; `none` at any mismatch. -/
def navigate {F : Type} : Value F → Option F
  | .map m =>
    match mapGet m "estimates" with
    | some (.map est) =>
      match mapGet est "median" with
      | some (.map med) =>
        match mapGet med "point_estimate" with
        | some (.float t) => some t
        | _ => none
      | _ => none
    | _ => none
  | _ => none

/-- What opening and CBOR-decoding a file yields: `File::open` failure,
`serde_cbor::from_reader` failure, or a decoded document. -/
inductive FileContent (F : Type) where
  | openErr (e : String)
  | decodeErr (e : String)
  | doc (v : Value F)

/-- The point the extraction loop emits for one located pair, if any. -/
def emit? {F : Type} (read : String → FileContent F) (q : Int × String) :
    Option (Int × F) :=
  match read q.2 with
  | .doc v => (navigate v).map fun t => (q.1, t)
  | _ => none

/-- The extraction loop of `decode_cbor` (main.rs lines 33–47): open and
decode each located file (`?` propagates open/decode failures as errors),
navigate, and push `(index, value)` on success; a navigation miss drops the
entry silently. -/
def extract {F : Type} (read : String → FileContent F) :
    List (Int × String) → Except String (List (Int × F))
  | [] => .ok []
  | q :: rest =>
    match read q.2 with
    | .openErr e => .error e
    | .decodeErr e => .error e
    | .doc v =>
      match navigate v with
      | some t => (extract read rest).map fun l => (q.1, t) :: l
      | none => extract read rest

/-- A dataset root: the entries its traversal yields (in traversal order;
`none` = non-UTF-8 path) and the result of reading each path. -/
structure Fs (F : Type) where
  entries : List (Option String)
  read : String → FileContent F

/-- The observable outcome of a call that may panic (`unwrap`) or return a
propagated error (`?`). -/
inductive Outcome (α : Type) where
  | panicked
  | error (e : String)
  | ok (a : α)
deriving DecidableEq

/-- `decode_cbor` (main.rs lines 7–50): locate (panics propagate), sort by
index, then extract (errors propagate). -/
def decode_cbor {F : Type} (fs : Fs F) : Outcome (List (Int × F)) :=
  match locate fs.entries with
  | none => .panicked
  | some pairs =>
    match extract fs.read (sortPairs pairs) with
    | .error e => .error e
    | .ok res => .ok res

/-- `format!("({}, {})", number, time)` (main.rs line 65), with the `f64`
`Display` rendering abstracted as `fmtF`. -/
def pointStr {F : Type} (fmtF : F → String) (q : Int × F) : String :=
  "(" ++ toString q.1 ++ ", " ++ fmtF q.2 ++ ")"

/-- The serialization loop of `main` (main.rs lines 59–67): starting from
`"["`, append `", "` before every point except the first, then append the
rendered point; `i` is the `enumerate` counter. -/
def renderAux {F : Type} (fmtF : F → String) :
    String → Nat → List (Int × F) → String
  | acc, _, [] => acc
  | acc, i, q :: rest =>
    renderAux fmtF (acc ++ (if i > 0 then ", " else "") ++ pointStr fmtF q) (i + 1) rest

/-- The serialized output artifact for one ResultSet (main.rs lines 59–67). -/
def renderResults {F : Type} (fmtF : F → String) (res : List (Int × F)) : String :=
  renderAux fmtF "[" 0 res ++ "]"

/-- One configured dataset of `main` (main.rs lines 53–54): its root's
filesystem, its output path, and whether `std::fs::write` to that path
succeeds. -/
structure Dataset (F : Type) where
  fs : Fs F
  outputFile : String
  writeOk : Bool

/-- How a run of `main` ends: normally, aborted by a write error propagated
out of `main` by `?` (main.rs line 68), or killed by a panic inside
`decode_cbor`. -/
inductive RunResult where
  | finished
  | abortedWrite
  | panicked
deriving DecidableEq

/-- The observable trace of a run of `main`: the files written with their
contents, the errors reported via `eprintln!` (main.rs line 71), and how the
run ended. -/
structure Trace where
  writes : List (String × String)
  errors : List String
  result : RunResult
deriving DecidableEq

/-- The dataset loop of `main` (main.rs lines 56–73): for each configured
dataset, run `decode_cbor`; on `Ok`, serialize and write the artifact (a
write failure propagates out of `main` via `?`, ending the run); on `Err`,
report via `eprintln!` and continue; a panic kills the process at once. -/
def runMain {F : Type} (fmtF : F → String) : List (Dataset F) → Trace
  | [] => ⟨[], [], .finished⟩
  | ds :: rest =>
    match decode_cbor ds.fs with
    | .panicked => ⟨[], [], .panicked⟩
    | .error e =>
      let t := runMain fmtF rest
      ⟨t.writes, e :: t.errors, t.result⟩
    | .ok res =>
      if ds.writeOk then
        let t := runMain fmtF rest
        ⟨(ds.outputFile, renderResults fmtF res) :: t.writes, t.errors, t.result⟩
      else ⟨[], [], .abortedWrite⟩

/-- The index derivation of the prototype `src/main.rs` (line 18): parse the
portion of the path's *third* `/`-separated segment (`split("/").nth(2)`)
preceding the first `"th"`; this coincides with `indexOfCand?` only when the
candidate's parent directory is the path's third segment. -/
def indexOfCandProto? (s : String) : Option Int :=
  ((splitChar '/' s.toList).get? 2).bind fun seg =>
    parseI32 (beforeTh (String.mk seg))

/-! ### Concrete fixtures -/

/-- A well-formed measurement document whose median point estimate is `v`. -/
def goodDoc (v : Rat) : Value Rat :=
  .map [(.text "estimates",
         .map [(.text "median",
                .map [(.text "point_estimate", .float v)])])]

/-- The traversal of the spec's example tree, with the parent directories
discovered in the order `3th x`, `1th x`, `2th x`. -/
def exEntries : List (Option String) :=
  [some "data", some "data/3th x", some "data/3th x/measurement.bin",
   some "data/1th x", some "data/1th x/measurement.bin",
   some "data/2th x", some "data/2th x/measurement.bin"]

/-- The contents of the spec's example tree: the three measurement documents
decode to point estimates 30.0, 10.0 and 20.0 respectively. -/
def exRead : String → FileContent Rat := fun p =>
  if p = "data/3th x/measurement.bin" then .doc (goodDoc 30)
  else if p = "data/1th x/measurement.bin" then .doc (goodDoc 10)
  else if p = "data/2th x/measurement.bin" then .doc (goodDoc 20)
  else .openErr "missing"

/-- The spec's example dataset root. -/
def exFs : Fs Rat := ⟨exEntries, exRead⟩

/-- A root holding two measurement files that share index 1. -/
def dupFs : Fs Rat :=
  ⟨[some "data", some "data/1th a", some "data/1th a/measurement",
    some "data/1th b", some "data/1th b/measurement"],
   fun p =>
     if p = "data/1th a/measurement" then .doc (goodDoc 10)
     else if p = "data/1th b/measurement" then .doc (goodDoc 11)
     else .openErr "missing"⟩

/-- A fixed formatter used when evaluating concrete runs. -/
def fmt0 : Rat → String := fun _ => "t"

/-- An empty dataset root: its ResultSet is empty. -/
def emptyFs : Fs Rat := ⟨[], fun _ => .openErr "missing"⟩

/-- A healthy dataset whose artifact is `good.txt`. -/
def goodDs : Dataset Rat := ⟨emptyFs, "good.txt", true⟩

/-- A root whose measurement file sits in a parent directory named `abc`,
which has no `th` and no parseable integer prefix. -/
def badIdxFs : Fs Rat :=
  ⟨[some "data", some "data/abc", some "data/abc/measurement.bin"],
   fun _ => .openErr "missing"⟩

/-- The dataset over `badIdxFs`. -/
def badIdxDs : Dataset Rat := ⟨badIdxFs, "bad.txt", true⟩

/-- A root whose only measurement file fails to CBOR-decode. -/
def decodeErrFs : Fs Rat :=
  ⟨[some "data", some "data/1th x", some "data/1th x/measurement.bin"],
   fun _ => .decodeErr "bad cbor"⟩

/-- The dataset over `decodeErrFs`. -/
def decodeErrDs : Dataset Rat := ⟨decodeErrFs, "dec.txt", true⟩

/-- A healthy dataset whose artifact write fails. -/
def writeFailDs : Dataset Rat := ⟨emptyFs, "wf.txt", false⟩

/-- A decoded document with no `"estimates"` key. -/
def missDoc : Value Rat := .map [(.text "mean", .float 5)]

/-- Contents for a run where the document at path `"b"` lacks `"estimates"`
while its siblings at `"a"` and `"c"` are well-formed. -/
def mixRead : String → FileContent Rat := fun p =>
  if p = "a" then .doc (goodDoc 10)
  else if p = "b" then .doc missDoc
  else if p = "c" then .doc (goodDoc 30)
  else .openErr "missing"

/-- A traversal yielding an entry whose path is not valid UTF-8. -/
def nonUtf8Fs : Fs Rat := ⟨[none], fun _ => .openErr "missing"⟩

/-- A traversal whose root entry is itself named `measurement`, so the
candidate has no parent file name. -/
def noParentFs : Fs Rat := ⟨[some "measurement"], fun _ => .openErr "missing"⟩

/-! ### Helper lemmas -/

theorem emit?_fst {F : Type} {read : String → FileContent F} {q : Int × String}
    {r : Int × F} (h : emit? read q = some r) : r.1 = q.1 := by
  unfold emit? at h
  cases hr : read q.2 <;> rw [hr] at h <;> simp at h
  cases hn : navigate _ <;> rw [hn] at h <;> simp at h
  rw [← h]

theorem extract_ok_eq {F : Type} (read : String → FileContent F) :
    ∀ (l : List (Int × String)) (res : List (Int × F)),
      extract read l = .ok res → res = l.filterMap (emit? read) := by
  intro l
  induction l with
  | nil =>
    intro res h
    simp [extract] at h
    simp [h.symm]
  | cons q rest ih =>
    intro res h
    cases hr : read q.2 with
    | openErr e => simp [extract, hr] at h
    | decodeErr e => simp [extract, hr] at h
    | doc v =>
      cases hn : navigate v with
      | none =>
        simp only [extract, hr, hn] at h
        rw [ih res h]
        simp [List.filterMap_cons, emit?, hr, hn]
      | some t =>
        simp only [extract, hr, hn] at h
        cases he : extract read rest with
        | error e => rw [he] at h; simp [Except.map] at h
        | ok l' =>
          rw [he] at h
          simp [Except.map] at h
          rw [← h, ih l' he]
          simp [List.filterMap_cons, emit?, hr, hn]

theorem filterMap_emit_fst_sublist {F : Type} (read : String → FileContent F) :
    ∀ l : List (Int × String),
      List.Sublist ((l.filterMap (emit? read)).map Prod.fst) (l.map Prod.fst) := by
  intro l
  induction l with
  | nil => simp
  | cons q rest ih =>
    cases he : emit? read q with
    | none =>
      simp only [List.filterMap_cons, he, List.map_cons]
      exact ih.cons q.1
    | some r =>
      simp only [List.filterMap_cons, he, List.map_cons]
      rw [emit?_fst he]
      exact ih.cons₂ q.1

theorem sorted_keys_sortPairs (l : List (Int × String)) :
    List.Sorted (· ≤ ·) ((sortPairs l).map Prod.fst) := by
  have h := List.sorted_insertionSort keyLE l
  rw [List.Sorted, List.pairwise_map]
  exact h

theorem extract_error_exists {F : Type} (read : String → FileContent F) :
    ∀ (l : List (Int × String)) (q : Int × String) (e0 : String),
      q ∈ l → read q.2 = .decodeErr e0 → ∃ e, extract read l = .error e := by
  intro l
  induction l with
  | nil => intro q e0 hq; cases hq
  | cons a rest ih =>
    intro q e0 hq hr
    rcases List.mem_cons.mp hq with h | h
    · subst h
      exact ⟨e0, by simp [extract, hr]⟩
    · cases ha : read a.2 with
      | openErr e => exact ⟨e, by simp [extract, ha]⟩
      | decodeErr e => exact ⟨e, by simp [extract, ha]⟩
      | doc v =>
        obtain ⟨e, he⟩ := ih q e0 h hr
        cases hn : navigate v with
        | none => exact ⟨e, by simp [extract, ha, hn, he]⟩
        | some t => exact ⟨e, by simp [extract, ha, hn, he, Except.map]⟩

theorem locate_none_of_badCand :
    ∀ (entries : List (Option String)) (p : String),
      some p ∈ entries → isCand p = true → indexOfCand? p = none →
      locate entries = none := by
  intro entries
  induction entries with
  | nil => intro p hp; cases hp
  | cons a rest ih =>
    intro p hp hc hi
    rcases List.mem_cons.mp hp with h | h
    · subst h
      simp [locate, hc, hi]
    · cases a with
      | none => simp [locate]
      | some b =>
        by_cases hb : isCand b
        · cases hib : indexOfCand? b with
          | none => simp [locate, hb, hib]
          | some n => simp [locate, hb, hib, ih p h hc hi]
        · simp [locate, hb, ih p h hc hi]

theorem locate_some_index :
    ∀ (entries : List (Option String)) (pairs : List (Int × String)),
      locate entries = some pairs → ∀ q ∈ pairs, indexOfCand? q.2 = some q.1 := by
  intro entries
  induction entries with
  | nil =>
    intro pairs h q hq
    simp [locate] at h
    subst h
    cases hq
  | cons a rest ih =>
    intro pairs h q hq
    cases a with
    | none => simp [locate] at h
    | some b =>
      by_cases hb : isCand b
      · cases hib : indexOfCand? b with
        | none => simp [locate, hb, hib] at h
        | some n =>
          simp only [locate, hb, if_true, hib] at h
          cases hl : locate rest with
          | none => rw [hl] at h; simp at h
          | some l' =>
            rw [hl] at h
            simp at h
            rw [← h] at hq
            rcases List.mem_cons.mp hq with h2 | h2
            · subst h2; exact hib
            · exact ih l' hl q h2
      · rw [locate, if_neg hb] at h
        exact ih pairs h q hq

theorem locate_some_snd :
    ∀ (entries : List (Option String)) (pairs : List (Int × String)),
      locate entries = some pairs →
      pairs.map Prod.snd = (entries.filterMap id).filter (fun p => isCand p) := by
  intro entries
  induction entries with
  | nil =>
    intro pairs h
    simp [locate] at h
    simp [← h]
  | cons a rest ih =>
    intro pairs h
    cases a with
    | none => simp [locate] at h
    | some b =>
      by_cases hb : isCand b
      · cases hib : indexOfCand? b with
        | none => simp [locate, hb, hib] at h
        | some n =>
          simp only [locate, hb, if_true, hib] at h
          cases hl : locate rest with
          | none => rw [hl] at h; simp at h
          | some l' =>
            rw [hl] at h
            simp at h
            rw [← h]
            simp [List.filterMap_cons, List.filter_cons, hb, ih l' hl]
      · rw [locate, if_neg hb] at h
        simp [List.filterMap_cons, List.filter_cons, hb, ih pairs h]

theorem renderAux_foldl {F : Type} (fmtF : F → String) :
    ∀ (l : List (Int × F)) (acc : String) (i : Nat), 0 < i →
      renderAux fmtF acc i l =
        l.foldl (fun r q => r ++ ", " ++ pointStr fmtF q) acc := by
  intro l
  induction l with
  | nil => intro acc i _; rfl
  | cons q rest ih =>
    intro acc i hi
    rw [renderAux, if_pos hi]
    rw [ih _ (i + 1) (Nat.succ_pos i)]
    simp [String.append_assoc]

theorem intercalate_go_foldl :
    ∀ (l : List String) (acc s : String),
      String.intercalate.go acc s l = l.foldl (fun r x => r ++ s ++ x) acc := by
  intro l
  induction l with
  | nil => intro acc s; rfl
  | cons b rest ih => intro acc s; rw [String.intercalate.go, ih]; rfl

theorem foldl_render_append {F : Type} (fmtF : F → String) :
    ∀ (l : List (Int × F)) (a b : String),
      l.foldl (fun r q => r ++ ", " ++ pointStr fmtF q) (a ++ b) =
        a ++ l.foldl (fun r q => r ++ ", " ++ pointStr fmtF q) b := by
  intro l
  induction l with
  | nil => intro a b; rfl
  | cons q rest ih =>
    intro a b
    simp only [List.foldl_cons]
    rw [String.append_assoc a b, String.append_assoc a, ← ih]

/-! ### Claims -/

/-- Claim C1: a successfully produced ResultSet is sorted by ascending index,
and is exactly the navigation-filtered image of the sorted located candidates,
so the pipeline itself introduces no points and deduplicates none; on the
spec's example tree, traversed in the order `3th x`, `1th x`, `2th x` with
point estimates 30.0, 10.0, 20.0, the output is
`[(1, 10.0), (2, 20.0), (3, 30.0)]`; duplicate input indices are preserved. -/
theorem C1_result_sorted :
    (∀ (F : Type) (fs : Fs F) (res : List (Int × F)),
        decode_cbor fs = .ok res →
        List.Sorted (· ≤ ·) (res.map Prod.fst) ∧
        ∃ pairs, locate fs.entries = some pairs ∧
          res = (sortPairs pairs).filterMap (emit? fs.read)) ∧
    decode_cbor exFs = .ok [(1, (10 : Rat)), (2, 20), (3, 30)] ∧
    decode_cbor dupFs = .ok [(1, (10 : Rat)), (1, 11)] := by
  refine ⟨?_, by decide, by decide⟩
  intro F fs res h
  cases hl : locate fs.entries with
  | none => simp [decode_cbor, hl] at h
  | some pairs =>
    cases he : extract fs.read (sortPairs pairs) with
    | error e => simp [decode_cbor, hl, he] at h
    | ok l' =>
      simp only [decode_cbor, hl, he, Outcome.ok.injEq] at h
      have heq : res = (sortPairs pairs).filterMap (emit? fs.read) := by
        rw [← h]
        exact extract_ok_eq fs.read (sortPairs pairs) l' he
      refine ⟨?_, pairs, rfl, heq⟩
      rw [heq]
      exact (sorted_keys_sortPairs pairs).sublist
        (filterMap_emit_fst_sublist fs.read (sortPairs pairs))

/-- Claim C1 witness: the general part of `C1_result_sorted` applied to the
spec's example dataset root. -/
theorem C1_result_sorted_witness :
    List.Sorted (· ≤ ·) (([(1, (10 : Rat)), (2, 20), (3, 30)] : List (Int × Rat)).map Prod.fst) ∧
    ∃ pairs, locate exFs.entries = some pairs ∧
      ([(1, (10 : Rat)), (2, 20), (3, 30)] : List (Int × Rat))
        = (sortPairs pairs).filterMap (emit? exFs.read) :=
  C1_result_sorted.1 Rat exFs [(1, (10 : Rat)), (2, 20), (3, 30)] (by decide)

/-- Claim C2 counterexample: a parent directory named `abc` makes the locator
panic (`parse::<i32>().unwrap()`), so the run dies with no error reported and
the remaining configured dataset is *not* processed — had it run alone, it
would have produced its artifact. -/
theorem C2_counterexample :
    runMain fmt0 [badIdxDs, goodDs] = ⟨[], [], .panicked⟩ ∧
    runMain fmt0 [goodDs] = ⟨[("good.txt", "[]")], [], .finished⟩ :=
  ⟨by decide, by decide⟩

/-- Claim C2 (amended): a measurement-file candidate whose parent directory
name has an unparseable pre-`th` prefix makes the whole process panic: the
trace shows no write, no reported error, and the remaining datasets are never
processed.  A parent name lacking `th` is not by itself fatal: the whole name
is then parsed, so a parent directory named `5` yields index 5. -/
theorem C2_amended :
    (∀ (F : Type) (fmtF : F → String) (ds : Dataset F) (rest : List (Dataset F))
        (p : String),
        some p ∈ ds.fs.entries → isCand p = true → indexOfCand? p = none →
        runMain fmtF (ds :: rest) = ⟨[], [], .panicked⟩) ∧
    locate [some "data", some "data/5", some "data/5/measurement.bin"]
      = some [(5, "data/5/measurement.bin")] := by
  refine ⟨?_, by decide⟩
  intro F fmtF ds rest p hp hc hi
  have hl := locate_none_of_badCand ds.fs.entries p hp hc hi
  simp [runMain, decode_cbor, hl]

/-- Claim C2 witness: `C2_amended` applied to the dataset whose measurement
file sits under the directory `abc`. -/
theorem C2_amended_witness :
    runMain fmt0 (badIdxDs :: [goodDs]) = ⟨[], [], .panicked⟩ :=
  C2_amended.1 Rat fmt0 badIdxDs [goodDs] "data/abc/measurement.bin"
    (by decide) (by decide) (by decide)

/-- Claim C3: a located, successfully decoded document contributes a
ResultPoint exactly when it is a map whose `"estimates"` key holds a map
whose `"median"` key holds a map whose `"point_estimate"` key holds a float
leaf; a successful extraction equals the `emit?`-filterMap of its input, so
an entry failing any step is silently dropped while the remaining entries
still appear — concretely, a document missing `"estimates"` between two valid
siblings yields the two siblings' points with no error. -/
theorem C3_navigation :
    (∀ (F : Type) (v : Value F) (t : F),
        navigate v = some t ↔
        ∃ m est med, v = .map m ∧
          mapGet m "estimates" = some (.map est) ∧
          mapGet est "median" = some (.map med) ∧
          mapGet med "point_estimate" = some (.float t)) ∧
    (∀ (F : Type) (read : String → FileContent F) (l : List (Int × String))
        (res : List (Int × F)),
        extract read l = .ok res → res = l.filterMap (emit? read)) ∧
    extract mixRead [(1, "a"), (2, "b"), (3, "c")] = .ok [(1, (10 : Rat)), (3, 30)] := by
  refine ⟨?_, fun F read l res h => extract_ok_eq read l res h, rfl⟩
  intro F v t
  constructor
  · intro h
    cases v with
    | map m =>
      cases h1 : mapGet m "estimates" with
      | none => simp [navigate, h1] at h
      | some v1 =>
        cases v1 with
        | map est =>
          cases h2 : mapGet est "median" with
          | none => simp [navigate, h1, h2] at h
          | some v2 =>
            cases v2 with
            | map med =>
              cases h3 : mapGet med "point_estimate" with
              | none => simp [navigate, h1, h2, h3] at h
              | some v3 =>
                cases v3 with
                | float t' =>
                  have ht : t' = t := by simpa [navigate, h1, h2, h3] using h
                  subst ht
                  exact ⟨m, est, med, rfl, h1, h2, h3⟩
                | map m3 => simp [navigate, h1, h2, h3] at h
                | text s => simp [navigate, h1, h2, h3] at h
                | integer n => simp [navigate, h1, h2, h3] at h
                | other => simp [navigate, h1, h2, h3] at h
            | text s => simp [navigate, h1, h2] at h
            | float f => simp [navigate, h1, h2] at h
            | integer n => simp [navigate, h1, h2] at h
            | other => simp [navigate, h1, h2] at h
        | text s => simp [navigate, h1] at h
        | float f => simp [navigate, h1] at h
        | integer n => simp [navigate, h1] at h
        | other => simp [navigate, h1] at h
    | text s => simp [navigate] at h
    | float f => simp [navigate] at h
    | integer n => simp [navigate] at h
    | other => simp [navigate] at h
  · rintro ⟨m, est, med, rfl, h1, h2, h3⟩
    simp [navigate, h1, h2, h3]

/-- Claim C3 witness: the extraction equation of `C3_navigation` applied to
the run whose middle document lacks `"estimates"`. -/
theorem C3_navigation_witness :
    [(1, (10 : Rat)), (3, 30)] = ([(1, "a"), (2, "b"), (3, "c")]).filterMap (emit? mixRead) :=
  C3_navigation.2.1 Rat mixRead [(1, "a"), (2, "b"), (3, "c")] [(1, (10 : Rat)), (3, 30)] rfl

/-- Claim C4: a located measurement file that fails to CBOR-decode makes
`decode_cbor` return an error for that dataset; `main` reports a dataset's
error and continues with the remaining datasets unchanged; concretely, a
malformed dataset followed by a well-formed one still produces the
well-formed artifact alongside the reported error. -/
theorem C4_decode_error_isolated :
    (∀ (F : Type) (fs : Fs F) (pairs : List (Int × String)) (q : Int × String)
        (e0 : String),
        locate fs.entries = some pairs → q ∈ sortPairs pairs →
        fs.read q.2 = .decodeErr e0 → ∃ e, decode_cbor fs = .error e) ∧
    (∀ (F : Type) (fmtF : F → String) (ds : Dataset F) (rest : List (Dataset F))
        (e : String),
        decode_cbor ds.fs = .error e →
        runMain fmtF (ds :: rest) =
          ⟨(runMain fmtF rest).writes, e :: (runMain fmtF rest).errors,
           (runMain fmtF rest).result⟩) ∧
    runMain fmt0 [decodeErrDs, goodDs] = ⟨[("good.txt", "[]")], ["bad cbor"], .finished⟩ := by
  refine ⟨?_, ?_, by decide⟩
  · intro F fs pairs q e0 hl hq hr
    obtain ⟨e, he⟩ := extract_error_exists fs.read (sortPairs pairs) q e0 hq hr
    exact ⟨e, by simp [decode_cbor, hl, he]⟩
  · intro F fmtF ds rest e h
    simp [runMain, h]

/-- Claim C4 witness: `C4_decode_error_isolated` applied to the dataset whose
only measurement file fails to decode, followed by a healthy dataset. -/
theorem C4_decode_error_isolated_witness :
    (∃ e, decode_cbor decodeErrFs = .error e) ∧
    runMain fmt0 (decodeErrDs :: [goodDs]) =
      ⟨(runMain fmt0 [goodDs]).writes, "bad cbor" :: (runMain fmt0 [goodDs]).errors,
       (runMain fmt0 [goodDs]).result⟩ :=
  ⟨C4_decode_error_isolated.1 Rat decodeErrFs [(1, "data/1th x/measurement.bin")]
      (1, "data/1th x/measurement.bin") "bad cbor" (by decide) (by decide) rfl,
   C4_decode_error_isolated.2.1 Rat fmt0 decodeErrDs [goodDs] "bad cbor" (by decide)⟩

/-- Claim C5: whenever the locator completes, the index paired with every
candidate is the `i32` parsed from the portion of the candidate's *parent
directory's* name that precedes the first occurrence of `"th"`. -/
theorem C5_index_from_parent :
    ∀ (entries : List (Option String)) (pairs : List (Int × String)),
      locate entries = some pairs →
      ∀ q ∈ pairs, ∃ d, parentFileName? q.2 = some d ∧
        parseI32 (beforeTh d) = some q.1 := by
  intro entries pairs h q hq
  have hi := locate_some_index entries pairs h q hq
  unfold indexOfCand? at hi
  exact Option.bind_eq_some.mp hi

/-- Claim C5 witness: `C5_index_from_parent` applied to the spec's example
tree at the candidate under `3th x`. -/
theorem C5_index_from_parent_witness :
    ∃ d, parentFileName? "data/3th x/measurement.bin" = some d ∧
      parseI32 (beforeTh d) = some 3 :=
  C5_index_from_parent exEntries
    [(3, "data/3th x/measurement.bin"), (1, "data/1th x/measurement.bin"),
     (2, "data/2th x/measurement.bin")]
    (by decide) (3, "data/3th x/measurement.bin") (by decide)

/-- Claim C6: whenever the locator completes, the located paths are exactly
the traversed entries whose final path segment starts with the literal
`"measurement"` — an entry whose final segment lacks that prefix is never
considered, whatever its content or extension. -/
theorem C6_classification :
    ∀ (entries : List (Option String)) (pairs : List (Int × String)),
      locate entries = some pairs →
      pairs.map Prod.snd =
        (entries.filterMap id).filter
          (fun p => isPre "measurement".toList (lastSeg p).toList) := by
  intro entries pairs h
  exact locate_some_snd entries pairs h

/-- Claim C6 witness: `C6_classification` applied to the spec's example
tree. -/
theorem C6_classification_witness :
    ([(3, "data/3th x/measurement.bin"), (1, "data/1th x/measurement.bin"),
      (2, "data/2th x/measurement.bin")]).map Prod.snd =
      (exEntries.filterMap id).filter
        (fun p => isPre "measurement".toList (lastSeg p).toList) :=
  C6_classification exEntries
    [(3, "data/3th x/measurement.bin"), (1, "data/1th x/measurement.bin"),
     (2, "data/2th x/measurement.bin")]
    (by decide)

/-- Claim C7: the serialized artifact is the points rendered as
`(index, time)` — index in decimal, time through the host formatter — joined
by `", "` and wrapped in square brackets, and the empty ResultSet serializes
to the literal `[]`. -/
theorem C7_serialization :
    ∀ (F : Type) (fmtF : F → String) (res : List (Int × F)),
      renderResults fmtF res =
        "[" ++ String.intercalate ", " (res.map (pointStr fmtF)) ++ "]" ∧
      renderResults fmtF [] = "[]" := by
  intro F fmtF res
  refine ⟨?_, rfl⟩
  cases res with
  | nil => rfl
  | cons q rest =>
    rw [renderResults, renderAux, if_neg (by simp)]
    rw [renderAux_foldl fmtF rest _ 1 Nat.one_pos]
    rw [String.append_empty]
    rw [foldl_render_append fmtF rest "[" (pointStr fmtF q)]
    simp only [List.map_cons]
    rw [String.intercalate]
    rw [intercalate_go_foldl, List.foldl_map]

/-- Claim C8 counterexample: a failing artifact write aborts the whole run —
the remaining configured dataset is *not* processed, though it would have
produced its artifact on its own. -/
theorem C8_counterexample :
    runMain fmt0 [writeFailDs, goodDs] = ⟨[], [], .abortedWrite⟩ ∧
    runMain fmt0 [goodDs] = ⟨[("good.txt", "[]")], [], .finished⟩ :=
  ⟨by decide, by decide⟩

/-- Claim C8 (amended): when a dataset's pipeline succeeds but its artifact
write fails, the `?` in `main` propagates the error out of `main`: the trace
records no write and no `eprintln!` report, and the remaining configured
datasets are not processed. -/
theorem C8_amended :
    ∀ (F : Type) (fmtF : F → String) (ds : Dataset F) (rest : List (Dataset F))
      (res : List (Int × F)),
      decode_cbor ds.fs = .ok res → ds.writeOk = false →
      runMain fmtF (ds :: rest) = ⟨[], [], .abortedWrite⟩ := by
  intro F fmtF ds rest res h hw
  simp [runMain, h, hw]

/-- Claim C8 witness: `C8_amended` applied to a healthy dataset whose write
fails, followed by another dataset. -/
theorem C8_amended_witness :
    runMain fmt0 (writeFailDs :: [goodDs]) = ⟨[], [], .abortedWrite⟩ :=
  C8_amended Rat fmt0 writeFailDs [goodDs] [] (by decide) rfl

/-- Claim C9: every write recorded by a run of `main` carries the rendering
of a ResultSet that `decode_cbor` produced successfully for that dataset —
the artifact of a dataset whose pipeline errors is never written. -/
theorem C9_write_only_on_success :
    ∀ (F : Type) (fmtF : F → String) (dss : List (Dataset F)) (w : String × String),
      w ∈ (runMain fmtF dss).writes →
      ∃ ds res, ds ∈ dss ∧ decode_cbor ds.fs = .ok res ∧ ds.writeOk = true ∧
        w = (ds.outputFile, renderResults fmtF res) := by
  intro F fmtF dss
  induction dss with
  | nil => intro w hw; simp [runMain] at hw
  | cons ds rest ih =>
    intro w hw
    cases hd : decode_cbor ds.fs with
    | panicked => simp [runMain, hd] at hw
    | error e =>
      simp only [runMain, hd] at hw
      obtain ⟨ds', res, hm, h1, h2, h3⟩ := ih w hw
      exact ⟨ds', res, List.mem_cons_of_mem ds hm, h1, h2, h3⟩
    | ok res =>
      cases hwk : ds.writeOk with
      | false => simp [runMain, hd, hwk] at hw
      | true =>
        simp only [runMain, hd, hwk] at hw
        rcases List.mem_cons.mp hw with h | h
        · exact ⟨ds, res, List.mem_cons_self ds rest, hd, hwk, h⟩
        · obtain ⟨ds', res', hm, h1, h2, h3⟩ := ih w h
          exact ⟨ds', res', List.mem_cons_of_mem ds hm, h1, h2, h3⟩

/-- Claim C9 witness: `C9_write_only_on_success` applied to the healthy
dataset run and its recorded write. -/
theorem C9_write_only_on_success_witness :
    ∃ ds res, ds ∈ [goodDs] ∧ decode_cbor ds.fs = .ok res ∧ ds.writeOk = true ∧
      ("good.txt", "[]") = (ds.outputFile, renderResults fmt0 res) :=
  C9_write_only_on_success Rat fmt0 [goodDs] ("good.txt", "[]") (by decide)

/-- Claim C10: `decode_cbor` is not total at its interface: a traversed entry
whose path is not valid UTF-8, or a candidate whose path has no parent file
name, makes it panic rather than return an error, so `main`'s error-reporting
branch is never reached on those inputs — the trace shows no reported
error. -/
theorem C10_partiality :
    decode_cbor nonUtf8Fs = .panicked ∧
    decode_cbor noParentFs = .panicked ∧
    runMain fmt0 [⟨nonUtf8Fs, "out.txt", true⟩] = ⟨[], [], .panicked⟩ ∧
    runMain fmt0 [⟨noParentFs, "out.txt", true⟩] = ⟨[], [], .panicked⟩ :=
  ⟨by decide, by decide, by decide, by decide⟩

end DataPlotter
